import Mathlib

/-!
Verification of the pozyxjs transport-and-framing layer.

The definitions below are a shallow embedding of the TypeScript sources
`src/connections/USBSerialConnection.ts` and `src/connections/COMMUSBStream.ts`.
Node `Buffer`s are modelled as `List Nat` of byte values (each `< 256` in any
buffer produced by Node), thrown JS `Error`s as `Except`/`Option` error values,
and the promise machinery as explicit state passing.  JS recursion whose
termination is in question is modelled with an explicit fuel parameter, where
`none` means the fuel ran out (the computation made that many nested calls
without completing).
-/

set_option maxHeartbeats 1000000

namespace Pozyx

/-! ### Hex codec (`USBSerialConnection.ts`, `toBufferOfByteHexStrings`,
`fromBufferOfByteHexStrings`, `intFromHexChar`) -/

/-- Errors thrown by the codec and parser of `USBSerialConnection.ts`. -/
inductive CodecErr where
  /-- thrown by `intFromHexChar` on a non-hex character code -/
  | invalidHexChar (c : Nat)
  /-- `Buffer.writeUInt8` throws when the decoded value exceeds 255 -/
  | writeOutOfRange
  /-- `Buffer.readUInt8(0)` throws on an empty buffer -/
  | readOutOfRange
  /-- `parseData` throws when the first byte is not `'D'` (68) -/
  | malformedDataMessage
deriving DecidableEq

instance {ε α : Type} [DecidableEq ε] [DecidableEq α] : DecidableEq (Except ε α)
  | .error e1, .error e2 =>
    if h : e1 = e2 then isTrue (by rw [h])
    else isFalse (by intro hh; cases hh; exact h rfl)
  | .error _, .ok _ => isFalse (by intro h; cases h)
  | .ok _, .error _ => isFalse (by intro h; cases h)
  | .ok a, .ok b =>
    if h : a = b then isTrue (by rw [h])
    else isFalse (by intro hh; cases hh; exact h rfl)

/-- `intFromHexChar` from `USBSerialConnection.ts`: '0'-'9' give 0-9,
'a'-'z' (char codes 97..122, as written in the source) give `c - 87`,
'A'-'F' give 10-15; anything else throws. -/
def intFromHexChar (c : Nat) : Except CodecErr Nat :=
  if 48 ≤ c ∧ c ≤ 57 then .ok (c - 48)
  else if 97 ≤ c ∧ c ≤ 122 then .ok (c - 97 + 10)
  else if 65 ≤ c ∧ c ≤ 70 then .ok (c - 65 + 10)
  else .error (.invalidHexChar c)

/-- The pair loop of `fromBufferOfByteHexStrings`: `for (i = 0; i < len - 1; i += 2)`
decodes consecutive pairs (a lone trailing byte is ignored by the loop bound) and
`writeUInt8` rejects values above 255.  The first hex character of a pair is
decoded before the second, so its error wins. -/
def decodePairs : List Nat → Except CodecErr (List Nat)
  | c1 :: c2 :: rest =>
    match intFromHexChar c1, intFromHexChar c2 with
    | .ok d1, .ok d2 =>
      if d1 * 16 + d2 ≤ 255 then
        match decodePairs rest with
        | .ok bs => .ok ((d1 * 16 + d2) :: bs)
        | .error e => .error e
      else .error .writeOutOfRange
    | .error e, _ => .error e
    | .ok _, .error e => .error e
  | _ => .ok []

/-- `fromBufferOfByteHexStrings` from `USBSerialConnection.ts`: allocates
`buf.length / 2` bytes (integer division; exact for the even-length buffers the
encoder produces) and fills them with the decoded pairs. -/
def fromBufferOfByteHexStrings (buf : List Nat) : Except CodecErr (List Nat) :=
  decodePairs buf

/-- The character code produced by `d.toString(16)` for a single hex digit
`d < 16`: '0'-'9' for 0-9, lowercase 'a'-'f' for 10-15. -/
def hexCharOfDigit (d : Nat) : Nat :=
  if d < 10 then 48 + d else 87 + d

/-- `toBufferOfByteHexStrings` from `USBSerialConnection.ts`: each byte
`data[i]` is written as `data[i].toString(16).padStart(2, '0')` at offset
`i * 2`, i.e. exactly two lowercase hex characters per byte (`data[i] < 256`
holds for every Node `Buffer`). -/
def toBufferOfByteHexStrings (data : List Nat) : List Nat :=
  (data.map fun b => [hexCharOfDigit (b / 16), hexCharOfDigit (b % 16)]).flatten

/-! ### Inbound frame parsing (`parseData`) -/

/-- `Buffer.lastIndexOf` for a single byte value: the index of the last
occurrence, or `none` (JS `-1`) when the byte does not occur. -/
def lastIdxOf (c : Nat) : List Nat → Option Nat
  | [] => none
  | x :: xs =>
    match lastIdxOf c xs with
    | some i => some (i + 1)
    | none => if x = c then some 0 else none

/-- `DATA_HEADER_SIZE` from `USBSerialConnection.ts`. -/
def DATA_HEADER_SIZE : Nat := 2

/-- Char code of the terminator `'\r'` (`DATA_END_CHAR_CODE`). -/
def DATA_END_CHAR_CODE : Nat := 13

/-- `parseData` from `USBSerialConnection.ts`: `readUInt8(0)` throws a range
error on an empty buffer; a first byte other than 68 (`'D'`) throws
`Malformed data message`; otherwise the slice from offset 2 up to the last
`'\r'` (or the end of the buffer when there is none) is hex-decoded.
JS `msg.slice(2, end)` is `(msg.take end).drop 2`. -/
def parseData : List Nat → Except CodecErr (List Nat)
  | [] => .error .readOutOfRange
  | b :: rest =>
    if b ≠ 68 then .error .malformedDataMessage
    else
      let msg := b :: rest
      let e := (lastIdxOf DATA_END_CHAR_CODE msg).getD msg.length
      fromBufferOfByteHexStrings ((msg.take e).drop DATA_HEADER_SIZE)

/-- Modelled from the spec (claim C4's wording): the payload region of a
response buffer, "the bytes from offset 2 up to but excluding the last `'\r'`
byte when one is present, or up to the end of the buffer when no `'\r'` is
present".  Used only to compare the spec's description with `parseData`. -/
def specPayloadSlice (msg : List Nat) : List Nat :=
  match lastIdxOf DATA_END_CHAR_CODE msg with
  | some e => (msg.take e).drop 2
  | none => msg.drop 2

/-! ### Outbound frames (`USBSerialConnection.ts`, `read`/`write`/`call` base cases) -/

/-- The character codes of `n.toString(16)` (lowercase hex, no padding). -/
def jsHexString (n : Nat) : List Nat :=
  (Nat.toDigits 16 n).map Char.toNat

/-- `s.padStart(2, '0')`: prepend `'0'` (48) up to length 2. -/
def padStart2 (l : List Nat) : List Nat :=
  List.replicate (2 - l.length) 48 ++ l

/-- `register.toString(16).padStart(2, '0')`: the 2-hex-char register field. -/
def hexByteField (n : Nat) : List Nat :=
  padStart2 (jsHexString n)

/-- The character codes of `n.toString()` (decimal). -/
def jsDecString (n : Nat) : List Nat :=
  (Nat.toDigits 10 n).map Char.toNat

/-- The bytes of the read frame `R,<reg:2 hex>,<length:decimal>\r`
built by the base case of `USBSerialConnection.read`. -/
def readFrame (register length : Nat) : List Nat :=
  [82, 44] ++ hexByteField register ++ [44] ++ jsDecString length ++ [13]

/-- The bytes of the write frame `W,<reg:2 hex>,<encoded data>\r` built by
the base case of `USBSerialConnection.write` (`encoded` is already the output
of `toBufferOfByteHexStrings`). -/
def writeFrame (register : Nat) (encoded : List Nat) : List Nat :=
  [87, 44] ++ hexByteField register ++ [44] ++ encoded ++ [13]

/-- The bytes of the call frame `F,<reg:2 hex>,<encoded params>,<length:decimal>\r`
built by `USBSerialConnection.call`. -/
def callFrame (register : Nat) (encodedParams : List Nat) (length : Nat) : List Nat :=
  [70, 44] ++ hexByteField register ++ [44] ++ encodedParams ++ [44]
    ++ jsDecString length ++ [13]

/-- `MAX_SERIAL_SIZE` from `USBSerialConnection.ts`. -/
def MAX_SERIAL_SIZE : Nat := 28

/-! ### Read chunking (`USBSerialConnection.read`)

For `length > 28` the source computes `nMsgs = (length / 28) >> 0`, issues
`nMsgs` recursive reads of 28 bytes at `register + i*28` followed by one read
of the remainder `length - nMsgs*28` at `register + nMsgs*28`, and
concatenates the results with `Buffer.concat` in that order.  Every recursive
call has length `≤ 28`, so it takes the non-chunking branch; the one-level
expansion below is therefore exact. -/

/-- The ordered list of `(address, length)` sub-reads issued by
`USBSerialConnection.read register length`. -/
def readPlan (register length : Nat) : List (Nat × Nat) :=
  if MAX_SERIAL_SIZE < length then
    let nMsgs := length / MAX_SERIAL_SIZE
    ((List.range nMsgs).map fun i =>
        (register + i * MAX_SERIAL_SIZE, MAX_SERIAL_SIZE))
      ++ [(register + nMsgs * MAX_SERIAL_SIZE, length - nMsgs * MAX_SERIAL_SIZE)]
  else [(register, length)]

/-- The byte contents of device memory locations `a, a+1, ..., a+l-1`:
the decoded payload a correct device returns for the sub-read `(a, l)`. -/
def memWindow (mem : Nat → Nat) (a l : Nat) : List Nat :=
  (List.range l).map fun j => mem (a + j)

/-- What `read register length` resolves with against a device whose register
memory is `mem`: the `Buffer.concat` of the decoded sub-results in plan
(address) order. -/
def readResult (mem : Nat → Nat) (register length : Nat) : List Nat :=
  ((readPlan register length).map fun al => memWindow mem al.1 al.2).flatten

/-! ### Connection submission model (`USBSerialConnection.ts`)

The three public operations are modelled by their synchronous submission
effects: promise executors run synchronously at creation, so the guard checks,
queue pushes and `usb.write` calls of a logical operation (and of all its
chunks) happen in program order before any inbound data can be handled.
The state records the `_isInitialized` flag, the `_dataHandlerQueue` (front of
the list = index 0 = most recently unshifted resolver, identified by a numeric
id) and the frames written to the transport, in order. -/

/-- Errors thrown synchronously inside the promise executors. -/
inductive OpErr where
  /-- operation invoked before `init()` completed -/
  | notInitialized
  /-- `call` params exceed 14 bytes -/
  | paramsTooLong
deriving DecidableEq

/-- The observable submission state of a `USBSerialConnection`. -/
structure ConnSt where
  isInitialized : Bool
  dataHandlerQueue : List Nat
  written : List (List Nat)
deriving DecidableEq

/-- The base (non-chunking) branch of `read`: the init guard runs first and
throws before anything is built or queued; otherwise the resolver is
unshifted and the read frame is written. -/
def readSubmitBase (st : ConnSt) (rid register length : Nat) :
    ConnSt × Option OpErr :=
  if st.isInitialized = false then (st, some .notInitialized)
  else
    ({ st with
        dataHandlerQueue := rid :: st.dataHandlerQueue,
        written := st.written ++ [readFrame register length] }, none)

/-- Sequentially submits every sub-read of a chunk plan.  All executors run
(a throwing executor only rejects its own promise), and `Promise.all` reports
the first error.  Sub-read `i` gets resolver id `rid + i`. -/
def submitAll (rid : Nat) (st : ConnSt) :
    List (Nat × Nat) → ConnSt × Option OpErr
  | [] => (st, none)
  | (r, l) :: rest =>
    let p := readSubmitBase st rid r l
    let q := submitAll (rid + 1) p.1 rest
    (q.1, p.2.orElse fun _ => q.2)

/-- The submission effect of `USBSerialConnection.read`. -/
def readSubmit (st : ConnSt) (rid register length : Nat) :
    ConnSt × Option OpErr :=
  submitAll rid st (readPlan register length)

/-- The submission effect of `USBSerialConnection.call`: init guard first,
then the 14-byte params ceiling (checked on the raw params, before hex
encoding), then the frame write and resolver unshift. -/
def callSubmit (st : ConnSt) (rid register : Nat) (params : List Nat)
    (length : Nat) : ConnSt × Option OpErr :=
  if st.isInitialized = false then (st, some .notInitialized)
  else if 14 < params.length then (st, some .paramsTooLong)
  else
    ({ st with
        dataHandlerQueue := rid :: st.dataHandlerQueue,
        written := st.written ++ [callFrame register
          (toBufferOfByteHexStrings params) length] }, none)

/-- Sequentially submits write chunks with the submission function `f`;
`none` (divergence) in a chunk aborts the whole computation, since the
recursion in the source is synchronous. -/
def writeChunksWith
    (f : ConnSt → Nat → List Nat → Option (ConnSt × Option OpErr)) :
    ConnSt → List (Nat × List Nat) → Option (ConnSt × Option OpErr)
  | st, [] => some (st, none)
  | st, (r, c) :: rest =>
    match f st r c with
    | none => none
    | some (st', e) =>
      match writeChunksWith f st' rest with
      | none => none
      | some (st'', e') => some (st'', e.orElse fun _ => e')

/-- The submission effect of `USBSerialConnection.write`, with fuel bounding
the nesting depth of recursive `this.write` calls (`none` = the recursion
never bottoms out).  Mirrors the source faithfully: the data is hex-encoded
FIRST, the encoded length is compared against `MAX_SERIAL_SIZE`, and the
chunk slices of the ALREADY ENCODED buffer are passed back to `write`, which
re-encodes them. -/
def writeSubmit : Nat → ConnSt → Nat → List Nat → Option (ConnSt × Option OpErr)
  | 0, _, _, _ => none
  | fuel + 1, st, register, data =>
    let d := toBufferOfByteHexStrings data
    if MAX_SERIAL_SIZE < d.length then
      let nMsgs := d.length / MAX_SERIAL_SIZE
      writeChunksWith (fun s r c => writeSubmit fuel s r c) st
        (((List.range nMsgs).map fun i =>
            (register + i * MAX_SERIAL_SIZE,
             (d.drop (i * MAX_SERIAL_SIZE)).take MAX_SERIAL_SIZE))
          ++ [(register + nMsgs * MAX_SERIAL_SIZE, d.drop (nMsgs * MAX_SERIAL_SIZE))])
    else if st.isInitialized = false then some (st, some .notInitialized)
    else some ({ st with written := st.written ++ [writeFrame register d] }, none)

/-! ### Request correlator (`USBSerialConnection` constructor data handler)

`read`/`call` unshift their `resolve` functions onto `_dataHandlerQueue`
(index 0 = newest).  The `'data'` listener runs
`if (this._dataHandlerQueue[0]) this._dataHandlerQueue.pop()(chunk)`:
when the queue is nonempty it pops the LAST element (the oldest resolver)
and invokes it with the raw chunk. -/

/-- Events seen by the correlator queue. -/
inductive QEv where
  /-- a `read`/`call` unshifts resolver `rid` -/
  | submit (rid : Nat)
  /-- an inbound chunk arrives on the stream -/
  | arrival (chunk : List Nat)

/-- Correlator state: the resolver queue plus the log of
(resolver, chunk) invocations, in invocation order. -/
structure QSt where
  queue : List Nat
  resolvedLog : List (Nat × List Nat)
deriving DecidableEq

/-- One event step of the correlator. -/
def stepQ (st : QSt) : QEv → QSt
  | .submit rid => { st with queue := rid :: st.queue }
  | .arrival c =>
    if st.queue.isEmpty then st
    else
      { queue := st.queue.dropLast,
        resolvedLog := st.resolvedLog ++ [((st.queue.getLast?).getD 0, c)] }

/-- Runs the correlator over an event trace. -/
def runQ : QSt → List QEv → QSt
  | st, [] => st
  | st, e :: es => runQ (stepQ st e) es

/-- The event trace of sequentially-awaited reads: read `k` is submitted,
its device reply arrives and resolves it before read `k+1` is submitted. -/
def seqTrace (k : Nat) : List (List Nat) → List QEv
  | [] => []
  | d :: ds => .submit k :: .arrival d :: seqTrace (k + 1) ds

/-! ### Write-error resolver cleanup (`read`/`call` write callbacks)

On a transfer error the callback runs
`const i = this._dataHandlerQueue.indexOf(resolve); if (i != -1) splice(i, 1);`
before rejecting the caller. -/

/-- `unshift(resolve)`: the resolver is pushed at the front. -/
def enqueueResolver (r : Nat) (q : List Nat) : List Nat := r :: q

/-- `indexOf` + conditional `splice(i, 1)`.  `List.indexOf` returns `q.length`
where JS returns `-1`, so the `i != -1` test becomes `i < q.length`. -/
def removeResolver (r : Nat) (q : List Nat) : List Nat :=
  let i := q.indexOf r
  if i < q.length then q.eraseIdx i else q

/-! ### Transport teardown (`COMMUSBStream._destroy`)

The teardown is a single promise chain with one trailing `.catch`: deassert
the control line, stop polling the data-in then the control-in endpoint,
remove all listeners, release the COMM interface, release the DATA interface,
reattach detached kernel drivers.  A step is modelled by an outcome
environment mapping it to `none` (fulfilled) or `some e` (rejected/thrown). -/

/-- The teardown steps of `_destroy`, in chain order. -/
inductive TStep where
  | setLineStateOff
  | stopPollIn
  | stopPollControl
  | removeListeners
  | releaseCOMM
  | releaseDATA
  | reattachDrivers
deriving DecidableEq

/-- A lower-layer teardown failure (libusb error code). -/
inductive TErr where
  | usbError (code : Nat)
deriving DecidableEq

/-- The chain order of `_destroy`. -/
def destroySteps : List TStep :=
  [.setLineStateOff, .stopPollIn, .stopPollControl, .removeListeners,
   .releaseCOMM, .releaseDATA, .reattachDrivers]

/-- Runs the `_destroy` promise chain: each `.then` runs only if no earlier
step rejected; the single trailing `.catch` delivers the first rejection to
`callback`.  Returns the list of steps that actually ran and the result
delivered to `callback` (`none` = clean teardown). -/
def runDestroy (env : TStep → Option TErr) : List TStep → List TStep × Option TErr
  | [] => ([], none)
  | s :: rest =>
    match env s with
    | some e => ([s], some e)
    | none =>
      let p := runDestroy env rest
      (s :: p.1, p.2)

/-- A teardown environment in which deasserting the control line fails and
every other step would succeed. -/
def envLineFail : TStep → Option TErr
  | .setLineStateOff => some (.usbError 1)
  | _ => none

/-! ### Union functional descriptor scan (`COMMUSBStream.ts`, `getDATAIface`)

`getDATAIface` walks `commIface.descriptor.extra` with
`while (length > 0) { dl = extra[pointer]; ...; length -= dl; pointer += dl }`.
Reading past the end of the buffer yields JS `undefined`, which makes the
guard false and `length` NaN, so the loop exits after that iteration; that
case is modelled by returning the current accumulator.  `dataIfaceId` starts
at `-1` and is modelled as `Option Int` (`none` = JS `undefined`, reachable
when a matching descriptor header sits at the very end of the buffer). -/

/-- One fueled run of the scan loop of `getDATAIface`.  `none` means the loop
performed `fuel` iterations without exiting. -/
def scanLoop (extra : List Nat) (comm : Nat) :
    Nat → Int → Nat → Option Int → Option (Option Int)
  | 0, _, _, _ => none
  | fuel + 1, length, pointer, dataIfaceId =>
    if length ≤ 0 then some dataIfaceId
    else
      match extra.get? pointer with
      | none => some dataIfaceId
      | some dl =>
        let dataIfaceId' :=
          if 5 ≤ dl ∧ extra.get? (pointer + 1) = some 0x24
              ∧ extra.get? (pointer + 2) = some 0x06
              ∧ extra.get? (pointer + 3) = some comm then
            (extra.get? (pointer + 4)).map Int.ofNat
          else dataIfaceId
        scanLoop extra comm fuel (length - dl) (pointer + dl) dataIfaceId'

/-- The descriptor-length prefixes visited by the scan loop, in visit order,
truncated at `fuel` iterations. -/
def visitedLens (extra : List Nat) : Nat → Int → Nat → List Nat
  | 0, _, _ => []
  | fuel + 1, length, pointer =>
    if length ≤ 0 then []
    else
      match extra.get? pointer with
      | none => []
      | some dl => dl :: visitedLens extra fuel (length - dl) (pointer + dl)

/-- The whole scan of `getDATAIface`, started as in the source with
`length = extra.length`, `pointer = 0`, `dataIfaceId = -1`. -/
def getDATAIfaceScan (extra : List Nat) (comm : Nat) (fuel : Nat) :
    Option (Option Int) :=
  scanLoop extra comm fuel (Int.ofNat extra.length) 0 (some (-1))

/-! ### Helper lemmas -/

lemma intFromHexChar_hexCharOfDigit (d : Nat) (h : d < 16) :
    intFromHexChar (hexCharOfDigit d) = .ok d := by
  unfold intFromHexChar hexCharOfDigit
  rcases Nat.lt_or_ge d 10 with h1 | h1
  · rw [if_pos h1, if_pos (by omega : 48 ≤ 48 + d ∧ 48 + d ≤ 57)]
    congr 1
    omega
  · rw [if_neg (by omega : ¬d < 10),
      if_neg (by omega : ¬(48 ≤ 87 + d ∧ 87 + d ≤ 57)),
      if_pos (by omega : 97 ≤ 87 + d ∧ 87 + d ≤ 122)]
    congr 1
    omega

lemma hexCharOfDigit_range (d : Nat) (h : d < 16) :
    (48 ≤ hexCharOfDigit d ∧ hexCharOfDigit d ≤ 57)
      ∨ (97 ≤ hexCharOfDigit d ∧ hexCharOfDigit d ≤ 102) := by
  unfold hexCharOfDigit
  split_ifs with h1
  · left; omega
  · right; omega

lemma toBuffer_cons (b : Nat) (B : List Nat) :
    toBufferOfByteHexStrings (b :: B)
      = hexCharOfDigit (b / 16) :: hexCharOfDigit (b % 16)
        :: toBufferOfByteHexStrings B := by
  simp [toBufferOfByteHexStrings]

lemma toBuffer_length (data : List Nat) :
    (toBufferOfByteHexStrings data).length = 2 * data.length := by
  induction data with
  | nil => rfl
  | cons b bs ih => rw [toBuffer_cons]; simp only [List.length_cons, ih]; omega

lemma decodePairs_toBuffer : ∀ B : List Nat, (∀ b ∈ B, b < 256) →
    decodePairs (toBufferOfByteHexStrings B) = .ok B := by
  intro B
  induction B with
  | nil => intro _; rfl
  | cons b B ih =>
    intro hB
    have hb : b < 256 := hB b (by simp)
    have hB' : ∀ x ∈ B, x < 256 := fun x hx => hB x (by simp [hx])
    have hd : b / 16 < 16 := Nat.div_lt_of_lt_mul (by omega)
    have hm : b % 16 < 16 := Nat.mod_lt _ (by norm_num)
    have hval : b / 16 * 16 + b % 16 = b := by
      rw [Nat.mul_comm]
      exact Nat.div_add_mod b 16
    rw [toBuffer_cons]
    unfold decodePairs
    rw [intFromHexChar_hexCharOfDigit _ hd, intFromHexChar_hexCharOfDigit _ hm]
    simp only
    rw [if_pos (by rw [hval]; omega), ih hB', hval]

lemma toBuffer_mem_range : ∀ B : List Nat, (∀ b ∈ B, b < 256) →
    ∀ c ∈ toBufferOfByteHexStrings B,
      (48 ≤ c ∧ c ≤ 57) ∨ (97 ≤ c ∧ c ≤ 102) := by
  intro B
  induction B with
  | nil => intro _ c hc; simp [toBufferOfByteHexStrings] at hc
  | cons b B ih =>
    intro hB c hc
    have hb : b < 256 := hB b (by simp)
    have hB' : ∀ x ∈ B, x < 256 := fun x hx => hB x (by simp [hx])
    rw [toBuffer_cons] at hc
    simp only [List.mem_cons] at hc
    rcases hc with rfl | rfl | hc
    · exact hexCharOfDigit_range _ (Nat.div_lt_of_lt_mul (by omega))
    · exact hexCharOfDigit_range _ (Nat.mod_lt _ (by norm_num))
    · exact ih hB' c hc

/-- C9.  Hex round-trip: for every byte sequence `B`, decoding the hex
encoding of `B` gives back `B`; the encoder produces exactly two characters
per byte, each a lowercase hex character (`'0'..'9'` or `'a'..'f'`),
preserving byte order. -/
theorem c9_hex_roundtrip : ∀ B : List Nat, (∀ b ∈ B, b < 256) →
    fromBufferOfByteHexStrings (toBufferOfByteHexStrings B) = .ok B ∧
    (toBufferOfByteHexStrings B).length = 2 * B.length ∧
    ∀ c ∈ toBufferOfByteHexStrings B,
      (48 ≤ c ∧ c ≤ 57) ∨ (97 ≤ c ∧ c ≤ 102) :=
  fun B hB => ⟨decodePairs_toBuffer B hB, toBuffer_length B, toBuffer_mem_range B hB⟩

theorem c9_witness :
    (∀ b ∈ [0, 255, 171], b < 256) ∧
    fromBufferOfByteHexStrings (toBufferOfByteHexStrings [0, 255, 171])
      = .ok [0, 255, 171] :=
  ⟨by decide, (c9_hex_roundtrip [0, 255, 171] (by decide)).1⟩

/-- C4.  Inbound frame parsing: on a nonempty response buffer, a first byte
other than 68 (`'D'`) always yields the malformed-data-message error, and a
first byte equal to 68 yields the hex-pair decoding of exactly the payload
slice described by the spec (offset 2 up to but excluding the last `'\r'`
when present, or to the end of the buffer otherwise). -/
theorem c4_parse_frame : ∀ msg : List Nat, msg ≠ [] →
    (msg.headD 0 ≠ 68 → parseData msg = .error .malformedDataMessage) ∧
    (msg.headD 0 = 68 →
      parseData msg = fromBufferOfByteHexStrings (specPayloadSlice msg)) := by
  intro msg hne
  match msg with
  | b :: rest =>
    simp only [List.headD]
    constructor
    · intro hb
      simp [parseData, hb]
    · intro hb
      subst hb
      simp only [parseData, specPayloadSlice]
      rw [if_neg (by simp : ¬(68 : Nat) ≠ 68)]
      cases hL : lastIdxOf DATA_END_CHAR_CODE (68 :: rest) with
      | some e => simp [hL, DATA_HEADER_SIZE]
      | none => simp [hL, DATA_HEADER_SIZE, List.take_length]

theorem c4_witness :
    ([68, 44, 52, 51, 13] : List Nat) ≠ [] ∧
    parseData [68, 44, 52, 51, 13]
      = fromBufferOfByteHexStrings (specPayloadSlice [68, 44, 52, 51, 13]) ∧
    parseData [68, 44, 52, 51, 13] = .ok [67] :=
  ⟨by decide,
   (c4_parse_frame [68, 44, 52, 51, 13] (by decide)).2 (by decide),
   by decide⟩

/-! ### C1: read chunking -/

lemma memWindow_append (mem : Nat → Nat) (a l1 l2 : Nat) :
    memWindow mem a (l1 + l2) = memWindow mem a l1 ++ memWindow mem (a + l1) l2 := by
  induction l2 with
  | zero => simp [memWindow]
  | succ n ih =>
    show memWindow mem a ((l1 + n) + 1) = _
    unfold memWindow at ih ⊢
    rw [List.range_succ, List.map_append, ih, List.range_succ, List.map_append]
    simp only [List.map_cons, List.map_nil, List.append_assoc, List.cons_append,
      List.nil_append, Nat.add_assoc]

lemma chunk_flatten (mem : Nat → Nat) (a n : Nat) :
    ((List.range n).map fun i => memWindow mem (a + i * 28) 28).flatten
      = memWindow mem a (n * 28) := by
  induction n with
  | zero => simp [memWindow]
  | succ n ih =>
    rw [List.range_succ, List.map_append, List.flatten_append]
    simp only [List.map_cons, List.map_nil, List.flatten_cons, List.flatten_nil,
      List.append_nil]
    rw [ih, show (n + 1) * 28 = n * 28 + 28 by ring, memWindow_append]

/-- C1 (amended).  For `L > 28`, `read A L` splits into `L / 28 + 1`
sub-reads (one more than `ceil(L / 28)` when `28 ∣ L`, the extra one of
length 0), the i-th targeting `A + i * 28`, and resolves with the
concatenation of the decoded sub-results in address order, which equals the
logical payload — the device memory window of length `L` at `A`. -/
theorem c1_read_chunking : ∀ (A L : Nat) (mem : Nat → Nat), 28 < L →
    (readPlan A L).length = L / 28 + 1 ∧
    (∀ i, i < (readPlan A L).length →
      ((readPlan A L).getD i (0, 0)).1 = A + i * 28) ∧
    readResult mem A L = memWindow mem A L := by
  intro A L mem hL
  have h28 : MAX_SERIAL_SIZE < L := hL
  have hplan : readPlan A L
      = ((List.range (L / 28)).map fun i => (A + i * 28, 28))
        ++ [(A + (L / 28) * 28, L - (L / 28) * 28)] := by
    unfold readPlan
    rw [if_pos h28]
    rfl
  have hmul : (L / 28) * 28 ≤ L := Nat.div_mul_le_self L 28
  refine ⟨by simp [hplan], ?_, ?_⟩
  · intro i hi
    rw [hplan] at hi ⊢
    simp only [List.length_append, List.length_map, List.length_range,
      List.length_singleton] at hi
    rcases Nat.lt_or_ge i (L / 28) with hi' | hi'
    · rw [List.getD_append _ _ _ _ (by simpa using hi')]
      simp [List.getD_eq_getElem?_getD, hi']
    · have : i = L / 28 := by omega
      subst this
      rw [List.getD_append_right _ _ _ _ (by simp)]
      simp
  · unfold readResult
    rw [hplan, List.map_append, List.flatten_append, List.map_map]
    have hcomp : ((fun al : Nat × Nat => memWindow mem al.1 al.2)
        ∘ fun i => (A + i * 28, 28)) = fun i => memWindow mem (A + i * 28) 28 := rfl
    rw [hcomp]
    simp only [List.map_cons, List.map_nil, List.flatten_cons, List.flatten_nil,
      List.append_nil]
    rw [chunk_flatten, ← memWindow_append]
    congr 1
    omega

theorem c1_witness : 28 < 56 ∧
    ((readPlan 0 56).length = 56 / 28 + 1 ∧
     (∀ i, i < (readPlan 0 56).length →
       ((readPlan 0 56).getD i (0, 0)).1 = 0 + i * 28) ∧
     readResult (fun j => j % 256) 0 56 = memWindow (fun j => j % 256) 0 56) :=
  ⟨by decide, c1_read_chunking 0 56 (fun j => j % 256) (by decide)⟩

/-- C1 (counterexample to the claim as stated).  At `A = 0`, `L = 56` the
code issues 3 sub-reads while `ceil(56 / 28) = 2`: the sub-read count is not
`ceil(L / 28)` when `28 ∣ L` (a zero-length trailing sub-read is issued). -/
theorem c1_counterexample :
    (readPlan 0 56).length = 3 ∧ (56 + 28 - 1) / 28 = 2 ∧
    (readPlan 0 56).length ≠ (56 + 28 - 1) / 28 := by decide

/-! ### C2 / C5: the write-chunking recursion never terminates -/

lemma writeSubmit_diverges :
    ∀ (fuel : Nat) (st : ConnSt) (register : Nat) (data : List Nat),
      15 ≤ data.length → writeSubmit fuel st register data = none := by
  intro fuel
  induction fuel with
  | zero => intro st r d h; rfl
  | succ fuel ih =>
    intro st register data h
    have hlen : (toBufferOfByteHexStrings data).length = 2 * data.length :=
      toBuffer_length data
    have h28 : MAX_SERIAL_SIZE < (toBufferOfByteHexStrings data).length := by
      unfold MAX_SERIAL_SIZE; omega
    have hn : 1 ≤ (toBufferOfByteHexStrings data).length / MAX_SERIAL_SIZE := by
      apply (Nat.one_le_div_iff (by unfold MAX_SERIAL_SIZE; norm_num)).mpr
      unfold MAX_SERIAL_SIZE; omega
    obtain ⟨m, hm⟩ : ∃ m,
        (toBufferOfByteHexStrings data).length / MAX_SERIAL_SIZE = m + 1 :=
      ⟨(toBufferOfByteHexStrings data).length / MAX_SERIAL_SIZE - 1, by omega⟩
    unfold writeSubmit
    dsimp only
    rw [if_pos h28, hm, List.range_succ_eq_map]
    simp only [List.map_cons, List.cons_append, Nat.zero_mul, Nat.add_zero,
      List.drop_zero]
    unfold writeChunksWith
    rw [ih st register ((toBufferOfByteHexStrings data).take MAX_SERIAL_SIZE)
      (by rw [List.length_take]; unfold MAX_SERIAL_SIZE at *; omega)]

/-- C2.  Evaluation of `write` at the claim's domain: for every raw data
buffer longer than 28 bytes (in fact for every one longer than 14), the
chunking path of `write` re-hex-encodes the already encoded chunk slices and
recurses forever — at every nesting depth (`fuel`) the operation completes
neither with frames nor with an error, contradicting the claimed split into
`ceil(L/28)` sub-writes of raw data. -/
theorem c2_write_chunking :
    ∀ (fuel : Nat) (st : ConnSt) (register : Nat) (data : List Nat),
      28 < data.length → writeSubmit fuel st register data = none :=
  fun fuel st register data h =>
    writeSubmit_diverges fuel st register data (by omega)

theorem c2_witness : 28 < (List.replicate 29 0).length ∧
    writeSubmit 5 ⟨true, [], []⟩ 0 (List.replicate 29 0) = none :=
  ⟨by decide, c2_write_chunking 5 ⟨true, [], []⟩ 0 (List.replicate 29 0) (by decide)⟩

lemma submitAll_uninit :
    ∀ (l : List (Nat × Nat)) (rid : Nat) (st : ConnSt),
      st.isInitialized = false → l ≠ [] →
      submitAll rid st l = (st, some .notInitialized) := by
  intro l
  induction l with
  | nil => intro _ _ _ h; exact absurd rfl h
  | cons p rest ih =>
    intro rid st hst _
    obtain ⟨r, len⟩ := p
    have hbase : readSubmitBase st rid r len = (st, some .notInitialized) := by
      unfold readSubmitBase
      rw [if_pos hst]
    unfold submitAll
    rw [hbase]
    dsimp only
    cases rest with
    | nil => simp [submitAll, Option.orElse]
    | cons p2 rest2 =>
      rw [ih (rid + 1) st hst (by simp)]
      simp [Option.orElse]

lemma readPlan_ne_nil (register length : Nat) : readPlan register length ≠ [] := by
  unfold readPlan
  split <;> simp

/-- C5.  The initialization guard: on an uninitialized connection every
`read` (any length, via its chunk plan), every `call`, and every `write`
whose data fits a single frame (≤ 14 raw bytes) fails with the
initialization error, leaving the state — queue and written frames — exactly
unchanged; but a `write` with 15 or more raw bytes of data never reaches the
guard at any recursion depth: it diverges in the chunking path instead of
failing with the initialization error. -/
theorem c5_init_guard :
    (∀ (st : ConnSt) (rid register length : Nat), st.isInitialized = false →
      readSubmit st rid register length = (st, some .notInitialized)) ∧
    (∀ (st : ConnSt) (rid register : Nat) (params : List Nat) (resultLength : Nat),
      st.isInitialized = false →
      callSubmit st rid register params resultLength = (st, some .notInitialized)) ∧
    (∀ (fuel : Nat) (st : ConnSt) (register : Nat) (data : List Nat),
      st.isInitialized = false → data.length ≤ 14 →
      writeSubmit (fuel + 1) st register data = some (st, some .notInitialized)) ∧
    (∀ (fuel : Nat) (st : ConnSt) (register : Nat) (data : List Nat),
      15 ≤ data.length → writeSubmit fuel st register data = none) := by
  refine ⟨?_, ?_, ?_, writeSubmit_diverges⟩
  · intro st rid register length h
    exact submitAll_uninit _ rid st h (readPlan_ne_nil register length)
  · intro st rid register params resultLength h
    unfold callSubmit
    rw [if_pos h]
  · intro fuel st register data h hlen
    have hfit : ¬MAX_SERIAL_SIZE < (toBufferOfByteHexStrings data).length := by
      rw [toBuffer_length]
      unfold MAX_SERIAL_SIZE
      omega
    unfold writeSubmit
    rw [if_neg hfit, if_pos h]

theorem c5_witness :
    readSubmit ⟨false, [], []⟩ 0 0 100 = (⟨false, [], []⟩, some .notInitialized) ∧
    callSubmit ⟨false, [], []⟩ 0 0 [1] 1 = (⟨false, [], []⟩, some .notInitialized) ∧
    writeSubmit 1 ⟨false, [], []⟩ 0 [5] = some (⟨false, [], []⟩, some .notInitialized) ∧
    writeSubmit 7 ⟨false, [], []⟩ 0 (List.replicate 15 0) = none :=
  ⟨c5_init_guard.1 ⟨false, [], []⟩ 0 0 100 rfl,
   c5_init_guard.2.1 ⟨false, [], []⟩ 0 0 [1] 1 rfl,
   c5_init_guard.2.2.1 0 ⟨false, [], []⟩ 0 [5] rfl (by decide),
   c5_init_guard.2.2.2 7 ⟨false, [], []⟩ 0 (List.replicate 15 0) (by decide)⟩

/-! ### C3: FIFO correlation for sequentially-awaited reads -/

/-- The (resolver, chunk) invocation log the sequential trace should produce:
request `k + i` paired with the `i`-th device reply. -/
def expectedPairs (k : Nat) : List (List Nat) → List (Nat × List Nat)
  | [] => []
  | d :: ds => (k, d) :: expectedPairs (k + 1) ds

lemma runQ_seqTrace :
    ∀ (ds : List (List Nat)) (k : Nat) (log : List (Nat × List Nat)),
      runQ ⟨[], log⟩ (seqTrace k ds) = ⟨[], log ++ expectedPairs k ds⟩ := by
  intro ds
  induction ds with
  | nil => intro k log; simp [seqTrace, runQ, expectedPairs]
  | cons d ds ih =>
    intro k log
    show runQ (stepQ (stepQ ⟨[], log⟩ (.submit k)) (.arrival d)) (seqTrace (k + 1) ds) = _
    have h1 : stepQ ⟨[], log⟩ (.submit k) = ⟨[k], log⟩ := rfl
    have h2 : stepQ (⟨[k], log⟩ : QSt) (.arrival d) = ⟨[], log ++ [(k, d)]⟩ := by
      simp [stepQ]
    rw [h1, h2, ih (k + 1) (log ++ [(k, d)])]
    simp [expectedPairs]

lemma expectedPairs_map_fst : ∀ (ds : List (List Nat)) (k : Nat),
    (expectedPairs k ds).map Prod.fst = List.range' k ds.length := by
  intro ds
  induction ds with
  | nil => intro k; rfl
  | cons d ds ih => intro k; simp [expectedPairs, List.range', ih]

lemma expectedPairs_map_snd : ∀ (ds : List (List Nat)) (k : Nat),
    (expectedPairs k ds).map Prod.snd = ds := by
  intro ds
  induction ds with
  | nil => intro k; rfl
  | cons d ds ih => intro k; simp [expectedPairs, ih]

/-- C3.  FIFO correlation: running the correlator over the trace of `N`
sequentially-awaited reads with device replies `ds` (each read's reply
arriving before the next read is submitted), the invocation log pairs
resolver `k` with the `k`-th reply: the resolvers fire in order `1..N`,
the `k`-th receiving exactly the `k`-th device reply, and the queue
drains to empty. -/
theorem c3_fifo_correlation : ∀ ds : List (List Nat),
    ((runQ ⟨[], []⟩ (seqTrace 1 ds)).resolvedLog.map Prod.fst
      = List.range' 1 ds.length) ∧
    ((runQ ⟨[], []⟩ (seqTrace 1 ds)).resolvedLog.map Prod.snd = ds) ∧
    (runQ ⟨[], []⟩ (seqTrace 1 ds)).queue = [] := by
  intro ds
  rw [runQ_seqTrace ds 1 []]
  exact ⟨by simp [expectedPairs_map_fst], by simp [expectedPairs_map_snd], rfl⟩

/-! ### C7: resolver cleanup on outbound-transfer failure -/

/-- C7.  When the outbound transfer of a `read`/`call` fails, removing the
freshly unshifted resolver (`indexOf` + `splice`) restores the queue to
exactly its pre-submission contents, and the failed request's resolver is no
longer anywhere in the queue (resolve functions are fresh closures, hence
the freshness hypothesis `r ∉ q0`). -/
theorem c7_resolver_cleanup : ∀ (q0 : List Nat) (r : Nat), r ∉ q0 →
    removeResolver r (enqueueResolver r q0) = q0 ∧
    r ∉ removeResolver r (enqueueResolver r q0) := by
  intro q0 r h
  have h2 : removeResolver r (enqueueResolver r q0) = q0 := by
    unfold removeResolver enqueueResolver
    rw [List.indexOf_cons_self]
    simp [List.eraseIdx]
  exact ⟨h2, by rw [h2]; exact h⟩

theorem c7_witness : (3 : Nat) ∉ [7, 9] ∧
    removeResolver 3 (enqueueResolver 3 [7, 9]) = [7, 9] ∧
    (3 : Nat) ∉ removeResolver 3 (enqueueResolver 3 [7, 9]) :=
  ⟨by decide, (c7_resolver_cleanup [7, 9] 3 (by decide)).1,
   (c7_resolver_cleanup [7, 9] 3 (by decide)).2⟩

/-! ### C8: the 14-byte call-parameter ceiling -/

/-- C8 (amended).  `call` with params longer than 14 raw bytes always fails
without writing any frame and without enqueueing a resolver (the state is
returned unchanged); the error is the parameter-length error when the
connection is initialized, and the initialization error otherwise, because
the initialization guard runs first. -/
theorem c8_call_param_ceiling :
    ∀ (st : ConnSt) (rid register : Nat) (params : List Nat) (resultLength : Nat),
      14 < params.length →
      callSubmit st rid register params resultLength =
        (st, some (if st.isInitialized then OpErr.paramsTooLong
                   else OpErr.notInitialized)) := by
  intro st rid register params resultLength h
  unfold callSubmit
  cases hi : st.isInitialized with
  | false => simp [hi]
  | true => simp [hi, h]

/-- C8 (counterexample to the claim as stated).  On an uninitialized
connection, `call` with 15-byte params does not fail with the
parameter-length error: the initialization guard fires first. -/
theorem c8_counterexample :
    (callSubmit ⟨false, [], []⟩ 1 0 (List.replicate 15 0) 1).2
      ≠ some OpErr.paramsTooLong := by decide

theorem c8_witness : 14 < (List.replicate 15 0).length ∧
    callSubmit ⟨true, [], []⟩ 1 0 (List.replicate 15 0) 1 =
      (⟨true, [], []⟩,
       some (if (⟨true, [], []⟩ : ConnSt).isInitialized then OpErr.paramsTooLong
             else OpErr.notInitialized)) :=
  ⟨by decide, c8_call_param_ceiling ⟨true, [], []⟩ 1 0 (List.replicate 15 0) 1 (by decide)⟩

/-! ### C6: teardown sequencing -/

lemma runDestroy_characterization :
    ∀ (env : TStep → Option TErr) (l : List TStep),
      runDestroy env l =
        ((l.takeWhile fun s => (env s).isNone)
          ++ ((l.find? fun s => (env s).isSome).elim [] fun s => [s]),
         (l.find? fun s => (env s).isSome).bind env) := by
  intro env l
  induction l with
  | nil => rfl
  | cons s rest ih =>
    cases h : env s with
    | some e =>
      simp [runDestroy, h, List.takeWhile_cons, List.find?_cons]
    | none =>
      simp [runDestroy, h, List.takeWhile_cons, List.find?_cons, ih]

/-- C6 (amended).  The teardown steps of `_destroy` run in chain order up to
and including the first failing step; the first failure surfaces as the
teardown result, and every later step — including any interface release that
has not yet happened — is skipped, because the chain has a single trailing
catch. -/
theorem c6_teardown : ∀ env : TStep → Option TErr,
    runDestroy env destroySteps =
      ((destroySteps.takeWhile fun s => (env s).isNone)
        ++ ((destroySteps.find? fun s => (env s).isSome).elim [] fun s => [s]),
       (destroySteps.find? fun s => (env s).isSome).bind env) :=
  fun env => runDestroy_characterization env destroySteps

/-- C6 (counterexample to the claim as stated).  If deasserting the control
line fails, the failure surfaces as the teardown result but BOTH interface
releases are skipped even though neither interface was released yet. -/
theorem c6_counterexample :
    (runDestroy envLineFail destroySteps).2 = some (.usbError 1) ∧
    TStep.releaseCOMM ∉ (runDestroy envLineFail destroySteps).1 ∧
    TStep.releaseDATA ∉ (runDestroy envLineFail destroySteps).1 := by decide

/-! ### C10: termination of the Union-descriptor scan -/

lemma scanLoop_terminates :
    ∀ (fuel : Nat) (extra : List Nat) (comm : Nat) (len : Int) (p : Nat)
      (d : Option Int),
      len.toNat < fuel → 0 ∉ visitedLens extra fuel len p →
      (scanLoop extra comm fuel len p d).isSome = true := by
  intro fuel
  induction fuel with
  | zero => intro _ _ len _ _ hf _; exact absurd hf (Nat.not_lt_zero _)
  | succ fuel ih =>
    intro extra comm len p d hf hv
    by_cases hlen : len ≤ 0
    · simp [scanLoop, hlen]
    · cases hx : extra.get? p with
      | none =>
        unfold scanLoop
        rw [if_neg hlen, hx]
        rfl
      | some dl =>
        have hv' : dl ≠ 0 ∧ 0 ∉ visitedLens extra fuel (len - dl) (p + dl) := by
          unfold visitedLens at hv
          rw [if_neg hlen, hx] at hv
          simp only [List.mem_cons] at hv
          exact ⟨fun hd => hv (Or.inl hd.symm), fun hm => hv (Or.inr hm)⟩
        unfold scanLoop
        rw [if_neg hlen, hx]
        apply ih
        · omega
        · exact hv'.2

lemma scanLoop_zero_prefix :
    ∀ (fuel comm : Nat) (d : Option Int), scanLoop [0] comm fuel 1 0 d = none := by
  intro fuel
  induction fuel with
  | zero => intro _ _; rfl
  | succ fuel ih =>
    intro comm d
    unfold scanLoop
    rw [if_neg (by norm_num)]
    show (match ([0] : List Nat).get? 0 with
      | none => some d
      | some dl => _) = none
    simp only [List.get?]
    show scanLoop [0] comm fuel (1 - (0 : Nat)) (0 + 0) _ = none
    exact ih comm _

/-- C10.  The descriptor scan of `getDATAIface` terminates whenever every
visited length-prefix byte is strictly positive (the remaining length then
strictly decreases, so `extra.length + 1` iterations always suffice); and
the positivity is necessary: on the buffer `[0]` — a zero length-prefix with
one byte remaining — the loop makes no progress and diverges at every fuel. -/
theorem c10_union_scan_termination :
    (∀ (extra : List Nat) (comm : Nat),
      0 ∉ visitedLens extra (extra.length + 1) (Int.ofNat extra.length) 0 →
      (getDATAIfaceScan extra comm (extra.length + 1)).isSome = true) ∧
    (∀ (fuel comm : Nat) (d : Option Int), scanLoop [0] comm fuel 1 0 d = none) := by
  constructor
  · intro extra comm hv
    exact scanLoop_terminates (extra.length + 1) extra comm _ 0 (some (-1))
      (by simp) hv
  · exact scanLoop_zero_prefix

theorem c10_witness :
    (0 ∉ visitedLens [5, 36, 6, 0, 1] ([5, 36, 6, 0, 1].length + 1)
        (Int.ofNat [5, 36, 6, 0, 1].length) 0) ∧
    (getDATAIfaceScan [5, 36, 6, 0, 1] 0 ([5, 36, 6, 0, 1].length + 1)).isSome = true :=
  ⟨by decide, c10_union_scan_termination.1 [5, 36, 6, 0, 1] 0 (by decide)⟩

end Pozyx
